import Mathlib

/-!
Shallow embedding of the scikit-gstat core under verification:

* `src/skgstat/models.py` — the six variogram kernels (`spherical`,
  `exponential`, `gaussian`, `cubic`, `stable`, `matern`) and the
  `variogram` vectorization decorator.
* `src/skgstat/interfaces/gstools.py` — the `MODEL_MAP` registry and the
  `skgstat_to_gstools` translation adapter.

Python floats are idealized as real numbers `ℝ`; Python dicts that the
adapter builds and mutates are modelled as association lists with
Python's dict semantics (update replaces a value in place, new keys are
appended in insertion order).  `scipy.special.kv` (the modified Bessel
function of the second kind) is not part of the repository and has no
Mathlib counterpart; the `matern` kernel therefore takes the Bessel
function as an explicit function argument.
-/

open Classical

/-- A Python value appearing in the adapter's keyword dictionaries:
`dim` is an int, every other entry is a float. -/
inductive PyVal where
  | int (z : ℤ)
  | float (x : ℝ)

/-- A Python dict with string keys, as an insertion-ordered association list. -/
abbrev Dict := List (String × PyVal)

/-- Python `d[k]` lookup (first binding wins; there is at most one). -/
def dget : Dict → String → Option PyVal
  | [], _ => none
  | (k, v) :: rest, key => if k = key then some v else dget rest key

/-- Python `d[k] = v`: replace the binding in place if present, else append. -/
def dset : Dict → String → PyVal → Dict
  | [], key, v => [(key, v)]
  | (k, w) :: rest, key, v =>
    if k = key then (k, v) :: rest else (k, w) :: dset rest key v

/-- Python `d.setdefault(k, v)`. -/
def dsetdefault (d : Dict) (k : String) (v : PyVal) : Dict :=
  match dget d k with
  | some _ => d
  | none => dset d k v

/-- Python `d.update(other)`: set every binding of `other`, in order. -/
def dupdate (d : Dict) (other : Dict) : Dict :=
  other.foldl (fun acc kv => dset acc kv.1 kv.2) d

/-- The describe record produced by a fitted variogram
(`variogram.describe()` in `skgstat_to_gstools`).  The numeric values the
adapter reads are `sill`, `nugget`, `effective_range` and the
family-specific shape key (`shape` for stable, `smoothness` for matern);
the latter two are optional because only those families carry them. -/
structure DescribeRecord where
  name : String
  sill : ℝ
  nugget : ℝ
  effective_range : ℝ
  shape? : Option ℝ := none
  smoothness? : Option ℝ := none

/-- Python `describe[key]` for the numeric keys the adapter reads. -/
def dlook (d : DescribeRecord) : String → Option ℝ
  | "sill" => some d.sill
  | "nugget" => some d.nugget
  | "effective_range" => some d.effective_range
  | "shape" => d.shape?
  | "smoothness" => d.smoothness?
  | _ => none

/-- Python `describe[key]` where a missing key raises `KeyError(key)`. -/
def dlookE (d : DescribeRecord) (key : String) : Except String ℝ :=
  match dlook d key with
  | some x => .ok x
  | none => .error key

/-- The `rescale` slot of a registry entry: `gstools.py` stores either a
float constant or a callable taking the full describe record. -/
inductive RescaleVal where
  | const (x : ℝ)
  | fn (f : DescribeRecord → Except String ℝ)

/-- One entry of `MODEL_MAP`: the dict
`dict(gs_cls=..., arg_map=..., rescale=...)`, where the `rescale` and
`arg_map` keys may be absent (they are `setdefault`-ed by the adapter). -/
structure Entry where
  gs_cls : String
  rescale : Option RescaleVal := none
  arg_map : Option (List (String × String)) := none

/-- The registry: a dict from family name to entry, insertion ordered. -/
abbrev Registry := List (String × Entry)

/-- Registry lookup, Python `MODEL_MAP[name]` / `name in MODEL_MAP`. -/
def rlookup : Registry → String → Option Entry
  | [], _ => none
  | (k, e) :: rest, key => if k = key then some e else rlookup rest key

/-- In-place mutation of a registry entry (Python's `setdefault` mutates
the entry dict stored inside `MODEL_MAP`): replace the first binding. -/
def rset : Registry → String → Entry → Registry
  | [], _, _ => []
  | (k, e) :: rest, key, e2 =>
    if k = key then (k, e2) :: rest else (k, e) :: rset rest key e2

/-- `stable_rescale(describe)` from `gstools.py`:
`np.power(3, 1 / describe["shape"])`. -/
noncomputable def stable_rescale (d : DescribeRecord) : Except String ℝ :=
  (dlookE d "shape").map fun s => (3 : ℝ) ^ (1 / s)

/-- `matern_rescale(describe)` from `gstools.py`:
`4.0 if 0.5 < describe["smoothness"] < 10.0 else 6.0`. -/
noncomputable def matern_rescale (d : DescribeRecord) : Except String ℝ :=
  (dlookE d "smoothness").map fun s =>
    if 0.5 < s ∧ s < 10.0 then (4 : ℝ) else 6.0

/-- `MODEL_MAP` from `gstools.py`, entry for entry. -/
noncomputable def MODEL_MAP : Registry :=
  [ ("spherical", { gs_cls := "Spherical" }),
    ("exponential", { gs_cls := "Exponential", rescale := some (.const 3.0) }),
    ("gaussian", { gs_cls := "Gaussian", rescale := some (.const 2.0) }),
    ("cubic", { gs_cls := "Cubic" }),
    ("stable",
      { gs_cls := "Stable", arg_map := some [("alpha", "shape")],
        rescale := some (.fn stable_rescale) }),
    ("matern",
      { gs_cls := "Matern", arg_map := some [("nu", "smoothness")],
        rescale := some (.fn matern_rescale) }) ]

/-- The classified failures of `skgstat_to_gstools`. -/
inductive Err where
  | missingDependency
  | unsupportedVersion
  | unsupportedModel (name : String)
  | keyError (key : String)

/-- The external library, reduced to what the adapter reads: its
`__version__` string.  `getattr(gs, cls)` is modelled by recording the
class name in the produced call. -/
structure GSTools where
  version : String

/-- The outcome `gs_model(**gs_kwargs)`: which external class was
instantiated and with which final keyword set. -/
structure GSCall where
  gs_cls : String
  gs_kwargs : Dict

/-- The variogram instance, reduced to the two members the adapter
reads: `variogram.dim` and `variogram.describe()`. -/
structure Variogram where
  dim : ℤ
  describe : DescribeRecord

/-- `version.split(".")` on the underlying character list. -/
def splitDotAux : List Char → List Char → List (List Char)
  | [], acc => [acc.reverse]
  | c :: rest, acc =>
    if c = '.' then acc.reverse :: splitDotAux rest []
    else splitDotAux rest (c :: acc)

/-- Python `int` on a numeric component (decimal digits; `int` raises on
non-numeric input, which no version under consideration has). -/
def digitsToNat (ds : List Char) : ℕ :=
  ds.foldl (fun n c => 10 * n + (c.toNat - 48)) 0

/-- `list(map(int, version.split(".")[:2]))`. -/
def versionParts (v : String) : List ℕ :=
  ((splitDotAux v.data []).take 2).map digitsToNat

/-- Python list `<`: lexicographic with shorter-prefix-is-less tiebreak. -/
def listLt : List ℕ → List ℕ → Bool
  | [], [] => false
  | [], _ :: _ => true
  | _ :: _, [] => false
  | a :: as, b :: bs => if a < b then true else if b < a then false else listLt as bs

/-- The two `setdefault` calls on the looked-up entry
(`gs_describe.setdefault("rescale", 1.0)` and
`gs_describe.setdefault("arg_map", dict())`). -/
def entryFill (e : Entry) : Entry :=
  { e with rescale := some (e.rescale.getD (.const 1.0)),
           arg_map := some (e.arg_map.getD []) }

/-- Line 81 of `gstools.py`:
`rescale(describe) if callable(rescale) else rescale`. -/
def resolveRescale (rv : RescaleVal) (d : DescribeRecord) : Except String ℝ :=
  match rv with
  | .const x => .ok x
  | .fn f => f d

/-- The `for arg in arg_map: gs_kwargs[arg] = float(describe[arg_map[arg]])`
loop; a missing describe key raises `KeyError`. -/
def applyArgMap (d : DescribeRecord) : List (String × String) → Dict → Except Err Dict
  | [], acc => .ok acc
  | (arg, key) :: rest, acc =>
    match dlook d key with
    | none => .error (.keyError key)
    | some x => applyArgMap d rest (dset acc arg (.float x))

/-- Lines 75–84 of `gstools.py`: build `gs_kwargs` from a filled entry
(`var`, `len_scale`, `nugget`, then `rescale`, then the `arg_map` loop). -/
def buildKwargs (e : Entry) (d : DescribeRecord) : Except Err Dict :=
  match resolveRescale (e.rescale.getD (.const 1.0)) d with
  | .error k => .error (.keyError k)
  | .ok rv =>
    applyArgMap d (e.arg_map.getD [])
      (dset
        [ ("var", .float (d.sill - d.nugget)),
          ("len_scale", .float d.effective_range),
          ("nugget", .float d.nugget) ]
        "rescale" (.float rv))

/-- Lines 70–87 of `gstools.py` after the import/version gate: look the
family up, `setdefault` the entry's `rescale`/`arg_map` slots (mutating
the registry), build `gs_kwargs`, merge the caller kwargs last, and
instantiate.  Returns the outcome together with the registry as it
stands after the call. -/
def translateCore (reg : Registry) (d : DescribeRecord) (kw : Dict) :
    Except Err GSCall × Registry :=
  match rlookup reg d.name with
  | none => (.error (.unsupportedModel d.name), reg)
  | some entry0 =>
    match buildKwargs (entryFill entry0) d with
    | .error err => (.error err, rset reg d.name (entryFill entry0))
    | .ok gsk =>
      (.ok ⟨(entryFill entry0).gs_cls, dupdate gsk kw⟩,
       rset reg d.name (entryFill entry0))

/-- `skgstat_to_gstools(variogram, **kwargs)` from `gstools.py`.  The
external library is `none` when not importable; the registry is passed
and returned explicitly because the Python code mutates the module-level
`MODEL_MAP` through `setdefault`. -/
def skgstat_to_gstools (gs : Option GSTools) (reg : Registry)
    (variogram : Variogram) (kwargs : Dict) : Except Err GSCall × Registry :=
  match gs with
  | none => (.error .missingDependency, reg)
  | some g =>
    if listLt (versionParts g.version) [1, 3] then
      (.error .unsupportedVersion, reg)
    else
      translateCore reg variogram.describe
        (dsetdefault kwargs "dim" (.int variogram.dim))

/-- The argument of a `@variogram`-wrapped kernel: Python dispatches on
`hasattr(args[0], '__iter__')`, i.e. scalar versus ordered sequence. -/
inductive LagInput (α : Type) where
  | scalar (x : α)
  | seq (xs : List α)

/-- The `variogram` decorator from `models.py`: map the scalar kernel
over an iterable first argument (`np.fromiter(map(...))` keeps length
and order), or apply it directly to a scalar. -/
def variogram {α β : Type} (f : α → β) : LagInput α → LagInput β
  | .scalar x => .scalar (f x)
  | .seq xs => .seq (xs.map f)

/-- `spherical(h, r, c0, b=0)` from `models.py`.  Python's `** 3.0` is a
float power, embedded as `Real.rpow`. -/
noncomputable def spherical (h r c0 b : ℝ) : ℝ :=
  let a := r / 1
  if h ≤ r then b + c0 * ((1.5 * (h / a)) - (0.5 * ((h / a) ^ (3.0 : ℝ))))
  else b + c0

/-- `exponential(h, r, c0, b=0)` from `models.py`. -/
noncomputable def exponential (h r c0 b : ℝ) : ℝ :=
  let a := r / 3
  b + c0 * (1 - Real.exp (-(h / a)))

/-- `gaussian(h, r, c0, b=0)` from `models.py` (`h ** 2` is an integer
power in the source). -/
noncomputable def gaussian (h r c0 b : ℝ) : ℝ :=
  let a := r / 2
  b + c0 * (1 - Real.exp (-(h ^ (2 : ℕ) / a ^ (2 : ℕ))))

/-- `cubic(h, r, c0, b=0)` from `models.py` (integer powers in the
source). -/
noncomputable def cubic (h r c0 b : ℝ) : ℝ :=
  let a := r / 1
  if h ≤ r then
    b + c0 * ((7 * (h ^ (2 : ℕ) / a ^ (2 : ℕ))) -
              ((35 / 4) * (h ^ (3 : ℕ) / a ^ (3 : ℕ))) +
              ((7 / 2) * (h ^ (5 : ℕ) / a ^ (5 : ℕ))) -
              ((3 / 4) * (h ^ (7 : ℕ) / a ^ (7 : ℕ))))
  else b + c0

/-- `stable(h, r, c0, s, b=0)` from `models.py`.  `np.power(3, 1/s)` and
`math.pow(h/a, s)` are float powers, embedded as `Real.rpow`. -/
noncomputable def stable (h r c0 s b : ℝ) : ℝ :=
  let a := r / (3 : ℝ) ^ (1 / s)
  b + c0 * (1 - Real.exp (-((h / a) ^ s)))

/-- `matern(h, r, c0, s, b=0)` from `models.py`.  `scipy.special.kv`
(the modified Bessel function of the second kind, singular at 0) is an
external library function with no Mathlib counterpart; it is taken as an
explicit function argument `kv`, so every theorem below holds for
arbitrary (finite real-valued) interpretations of it.
`special.gamma` is `Real.Gamma`; `np.power(..., s)` is `Real.rpow`. -/
noncomputable def matern (kv : ℝ → ℝ → ℝ) (h r c0 s b : ℝ) : ℝ :=
  let a := r / 2
  b + c0 * (1 - (2 / Real.Gamma s) *
    (((h * Real.sqrt s) / a) ^ s) *
    kv s (2 * ((h * Real.sqrt s) / a)))

/-! ### Concrete fixtures used by the claim theorems -/

/-- The spec's spherical describe record:
`{name: "spherical", sill: 6.0, nugget: 1.0, effective_range: 10.0, dim: 2}`
(`dim` lives on the variogram object, where the adapter reads it). -/
noncomputable def dSpherical : DescribeRecord :=
  { name := "spherical", sill := 6.0, nugget := 1.0, effective_range := 10.0 }

/-- A fitted spherical variogram with `dim = 2`. -/
noncomputable def vSpherical : Variogram := ⟨2, dSpherical⟩

/-- A stable describe record with `shape = 2.0`. -/
noncomputable def dStable : DescribeRecord :=
  { name := "stable", sill := 6.0, nugget := 1.0, effective_range := 10.0,
    shape? := some 2.0 }

/-- A fitted stable variogram with `dim = 2`. -/
noncomputable def vStable : Variogram := ⟨2, dStable⟩

/-- A matern describe record with `smoothness = 1.5`. -/
noncomputable def dMatern15 : DescribeRecord :=
  { name := "matern", sill := 6.0, nugget := 1.0, effective_range := 10.0,
    smoothness? := some 1.5 }

/-- A matern describe record with `smoothness = 15.0`. -/
noncomputable def dMatern150 : DescribeRecord :=
  { name := "matern", sill := 6.0, nugget := 1.0, effective_range := 10.0,
    smoothness? := some 15.0 }

/-- A describe record whose family name is not registered. -/
noncomputable def dUnknown : DescribeRecord :=
  { name := "unknown", sill := 6.0, nugget := 1.0, effective_range := 10.0 }

/-- A stubbed external library reporting version `"1.3.0"`. -/
def gs13 : GSTools := ⟨"1.3.0"⟩

/-- A stubbed external library reporting version `"1.2.0"`. -/
def gs12 : GSTools := ⟨"1.2.0"⟩

/-- The external call the adapter produces for `vSpherical` with no
overrides. -/
noncomputable def cSpherical : GSCall :=
  ⟨"Spherical",
    [ ("var", .float (6.0 - 1.0)), ("len_scale", .float 10.0),
      ("nugget", .float 1.0), ("rescale", .float 1.0), ("dim", .int 2) ]⟩

/-- The external call the adapter produces for `vSpherical` with the
override `rescale=9.9`. -/
noncomputable def cSphericalOverride : GSCall :=
  ⟨"Spherical",
    [ ("var", .float (6.0 - 1.0)), ("len_scale", .float 10.0),
      ("nugget", .float 1.0), ("rescale", .float 9.9), ("dim", .int 2) ]⟩

/-- Reads one key of the final keyword set out of a successful
translation outcome. -/
def okKwarg (res : Except Err GSCall) (k : String) : Option PyVal :=
  match res with
  | .ok c => dget c.gs_kwargs k
  | .error _ => none

/-- Whether the registry entry stored under `n` currently has its
`rescale` key (observable registry state, used to exhibit mutation). -/
def entryRescaleSet (r : Registry) (n : String) : Option Bool :=
  (rlookup r n).map fun e => e.rescale.isSome

/-! ### Claim theorems for the kernel layer -/

/-- C7: for every family except matern (spherical, exponential, gaussian,
cubic, stable) and every `r > 0`, `c0 ≥ 0`, `b ≥ 0` (and `s > 0` for
stable), evaluating the kernel at lag `h = 0` returns exactly `b`, the
nugget. -/
theorem zero_lag_returns_nugget (r c0 b s : ℝ) (hr : 0 < r) (hc0 : 0 ≤ c0)
    (hb : 0 ≤ b) (hs : 0 < s) :
    spherical 0 r c0 b = b ∧ exponential 0 r c0 b = b ∧
    gaussian 0 r c0 b = b ∧ cubic 0 r c0 b = b ∧
    stable 0 r c0 s b = b := by
  refine ⟨?_, ?_, ?_, ?_, ?_⟩
  · simp [spherical, hr.le, Real.zero_rpow (by norm_num : (3.0:ℝ) ≠ 0)]
  · simp [exponential]
  · simp [gaussian]
  · simp [cubic, hr.le]
  · simp [stable, Real.zero_rpow hs.ne']

/-- Witness for `zero_lag_returns_nugget` at `r = 1`, `c0 = 1`, `b = 0`,
`s = 1`. -/
theorem zero_lag_returns_nugget_witness :
    spherical 0 1 1 0 = 0 ∧ exponential 0 1 1 0 = 0 ∧
    gaussian 0 1 1 0 = 0 ∧ cubic 0 1 1 0 = 0 ∧
    stable 0 1 1 1 0 = 0 :=
  zero_lag_returns_nugget 1 1 0 1 one_pos zero_le_one (le_refl 0) one_pos

/-- C8: for the piecewise families spherical and cubic, for every
`r > 0`, `c0 ≥ 0`, `b ≥ 0` and every lag `h ≥ r` (including `h = r`,
which the source handles in the polynomial branch of `if h <= r`), the
kernel returns `b + c0`, the flat sill. -/
theorem piecewise_flat_sill (h r c0 b : ℝ) (hr : 0 < r) (hc0 : 0 ≤ c0)
    (hb : 0 ≤ b) (hrh : r ≤ h) :
    spherical h r c0 b = b + c0 ∧ cubic h r c0 b = b + c0 := by
  rcases eq_or_lt_of_le hrh with heq | hlt
  · subst heq
    constructor
    · simp only [spherical]
      rw [if_pos (le_refl r)]
      rw [div_one, div_self hr.ne']
      rw [Real.one_rpow]
      ring
    · simp only [cubic]
      rw [if_pos (le_refl r)]
      rw [div_one, div_self (pow_ne_zero 2 hr.ne'),
        div_self (pow_ne_zero 3 hr.ne'), div_self (pow_ne_zero 5 hr.ne'),
        div_self (pow_ne_zero 7 hr.ne')]
      ring
  · constructor
    · simp only [spherical]
      rw [if_neg (not_le.mpr hlt)]
    · simp only [cubic]
      rw [if_neg (not_le.mpr hlt)]

/-- Witness for `piecewise_flat_sill` at `h = r = 1`, `c0 = 1`,
`b = 0` (the boundary case `h = r` exactly). -/
theorem piecewise_flat_sill_witness :
    spherical 1 1 1 0 = 0 + 1 ∧ cubic 1 1 1 0 = 0 + 1 :=
  piecewise_flat_sill 1 1 1 0 one_pos zero_le_one (le_refl 0) (le_refl 1)

/-- C6: the `variogram` wrapper applies the scalar kernel elementwise to
an ordered sequence of lags, preserving order and length with no
aggregation, filtering or reordering, and returns the single scalar
result for a scalar first argument — uniformly across all six kernel
families. -/
theorem vectorized_evaluation_elementwise (r c0 s b x : ℝ) (l : List ℝ)
    (kv : ℝ → ℝ → ℝ) :
    (variogram (fun h => spherical h r c0 b) (.seq l) =
        .seq (l.map fun h => spherical h r c0 b) ∧
      variogram (fun h => spherical h r c0 b) (.scalar x) =
        .scalar (spherical x r c0 b)) ∧
    (variogram (fun h => exponential h r c0 b) (.seq l) =
        .seq (l.map fun h => exponential h r c0 b) ∧
      variogram (fun h => exponential h r c0 b) (.scalar x) =
        .scalar (exponential x r c0 b)) ∧
    (variogram (fun h => gaussian h r c0 b) (.seq l) =
        .seq (l.map fun h => gaussian h r c0 b) ∧
      variogram (fun h => gaussian h r c0 b) (.scalar x) =
        .scalar (gaussian x r c0 b)) ∧
    (variogram (fun h => cubic h r c0 b) (.seq l) =
        .seq (l.map fun h => cubic h r c0 b) ∧
      variogram (fun h => cubic h r c0 b) (.scalar x) =
        .scalar (cubic x r c0 b)) ∧
    (variogram (fun h => stable h r c0 s b) (.seq l) =
        .seq (l.map fun h => stable h r c0 s b) ∧
      variogram (fun h => stable h r c0 s b) (.scalar x) =
        .scalar (stable x r c0 s b)) ∧
    (variogram (fun h => matern kv h r c0 s b) (.seq l) =
        .seq (l.map fun h => matern kv h r c0 s b) ∧
      variogram (fun h => matern kv h r c0 s b) (.scalar x) =
        .scalar (matern kv x r c0 s b)) ∧
    (∀ f : ℝ → ℝ, (l.map f).length = l.length) :=
  ⟨⟨rfl, rfl⟩, ⟨rfl, rfl⟩, ⟨rfl, rfl⟩, ⟨rfl, rfl⟩, ⟨rfl, rfl⟩,
    ⟨rfl, rfl⟩, fun f => l.length_map f⟩

/-- C1 (code bug): `matern` has no special case at `h = 0`; it evaluates
the general formula there.  For any finite real-valued interpretation
`kv` of the external Bessel function, at `h = 0`, `r = 1`, `c0 = 1`,
`s = 1`, `b = 0` the formula gives `b + c0 = 1`, not the nugget `b = 0`
the specification requires.  (The actual float run is even worse:
`scipy.special.kv(s, 0)` is infinite, so `0 * inf` makes the result
NaN.) -/
theorem matern_zero_lag_not_special_cased :
    ∀ kv : ℝ → ℝ → ℝ, matern kv 0 1 1 1 0 = 1 ∧ (1 : ℝ) ≠ 0 := by
  intro kv
  constructor
  · simp [matern, Real.rpow_one]
  · norm_num

/-- Witness for `matern_zero_lag_not_special_cased` at the everywhere-zero
interpretation of the Bessel function. -/
theorem matern_zero_lag_not_special_cased_witness :
    matern (fun _ _ => 0) 0 1 1 1 0 = 1 ∧ (1 : ℝ) ≠ 0 :=
  matern_zero_lag_not_special_cased fun _ _ => 0

/-! ### Dictionary and registry lemmas -/

theorem dget_dset_self (d : Dict) (k : String) (v : PyVal) :
    dget (dset d k v) k = some v := by
  induction d with
  | nil => simp [dset, dget]
  | cons p rest ih =>
    by_cases hk : p.1 = k
    · simp [dset, dget, hk]
    · simpa [dset, dget, hk] using ih

theorem dget_dset_ne (d : Dict) (k k2 : String) (v : PyVal) (hne : k ≠ k2) :
    dget (dset d k v) k2 = dget d k2 := by
  induction d with
  | nil => simp [dset, dget, hne]
  | cons p rest ih =>
    by_cases hk : p.1 = k
    · simp [dset, dget, hk, hne]
    · by_cases hk2 : p.1 = k2
      · simp [dset, dget, hk, hk2, Ne.symm hne]
      · simpa [dset, dget, hk, hk2] using ih

theorem dget_dsetdefault_present (d : Dict) (k0 k : String) (v0 v : PyVal)
    (h : dget d k = some v) : dget (dsetdefault d k0 v0) k = some v := by
  unfold dsetdefault
  cases h0 : dget d k0 with
  | some w => exact h
  | none =>
    have hne : k0 ≠ k := by
      intro he
      rw [he, h] at h0
      cases h0
    rw [dget_dset_ne d k0 k v0 hne]
    exact h

theorem keys_dset_of_none (d : Dict) (k : String) (v : PyVal)
    (h : dget d k = none) :
    (dset d k v).map Prod.fst = d.map Prod.fst ++ [k] := by
  induction d with
  | nil => simp [dset]
  | cons p rest ih =>
    by_cases hk : p.1 = k
    · simp [dget, hk] at h
    · simp only [dget, hk, if_neg, ite_false] at h
      simp only [dset, hk, ite_false, List.map_cons, List.cons_append,
        List.cons.injEq, true_and]
      exact ih h

theorem keys_dsetdefault_nodup (d : Dict) (k0 : String) (v0 : PyVal)
    (h : (d.map Prod.fst).Nodup) :
    ((dsetdefault d k0 v0).map Prod.fst).Nodup := by
  unfold dsetdefault
  cases h0 : dget d k0 with
  | some w => exact h
  | none =>
    rw [keys_dset_of_none d k0 v0 h0]
    rw [List.nodup_append]
    refine ⟨h, List.nodup_singleton k0, ?_⟩
    intro a ha hb
    simp only [List.mem_singleton] at hb
    subst hb
    have : dget d a ≠ none := by
      clear h h0
      induction d with
      | nil => simp at ha
      | cons p rest ih =>
        simp only [List.map_cons, List.mem_cons] at ha
        rcases ha with ha | ha
        · simp [dget, ha]
        · by_cases hp : p.1 = a
          · simp [dget, hp]
          · simpa [dget, hp] using ih ha
    exact this h0

theorem dupdate_cons (d : Dict) (p : String × PyVal) (rest : Dict) :
    dupdate d (p :: rest) = dupdate (dset d p.1 p.2) rest := rfl

theorem dget_dupdate_not_mem (d other : Dict) (k : String)
    (h : k ∉ other.map Prod.fst) : dget (dupdate d other) k = dget d k := by
  induction other generalizing d with
  | nil => rfl
  | cons p rest ih =>
    simp only [List.map_cons, List.mem_cons] at h
    push_neg at h
    rw [dupdate_cons, ih (dset d p.1 p.2) h.2, dget_dset_ne _ _ _ _ (Ne.symm h.1)]

theorem dget_dupdate_mem (d other : Dict) (k : String) (val : PyVal)
    (hnd : (other.map Prod.fst).Nodup) (h : dget other k = some val) :
    dget (dupdate d other) k = some val := by
  induction other generalizing d with
  | nil => cases h
  | cons p rest ih =>
    simp only [List.map_cons, List.nodup_cons] at hnd
    by_cases hk : p.1 = k
    · have hval : val = p.2 := by
        cases p with
        | mk k1 v1 =>
          simp only at hk
          subst hk
          simp [dget] at h
          exact h.symm
      subst hval
      rw [dupdate_cons, dget_dupdate_not_mem _ _ _ (by rw [hk] at hnd; exact hnd.1)]
      rw [← hk, dget_dset_self]
    · have h' : dget rest k = some val := by
        cases p with
        | mk k1 v1 =>
          simp only at hk
          simpa [dget, hk] using h
      rw [dupdate_cons]
      exact ih _ hnd.2 h'

theorem rlookup_rset_found (reg : Registry) (n : String) (e x : Entry)
    (h : rlookup reg n = some e) : rlookup (rset reg n x) n = some x := by
  induction reg with
  | nil => cases h
  | cons p rest ih =>
    by_cases hk : p.1 = n
    · cases p with
      | mk k1 e1 => simp only at hk; simp [rset, rlookup, hk]
    · cases p with
      | mk k1 e1 =>
        simp only at hk
        simp only [rlookup, hk, ite_false, if_neg] at h
        simp [rset, rlookup, hk]
        exact ih h

theorem rset_rset (reg : Registry) (n : String) (x y : Entry) :
    rset (rset reg n x) n y = rset reg n y := by
  induction reg with
  | nil => rfl
  | cons p rest ih =>
    cases p with
    | mk k1 e1 =>
      by_cases hk : k1 = n
      · simp [rset, hk]
      · simp [rset, hk, ih]

theorem entryFill_idem (e : Entry) : entryFill (entryFill e) = entryFill e := by
  cases e with
  | mk cls rsc am => simp [entryFill]

/-! ### Structural lemmas about the adapter -/

theorem applyArgMap_ok_dget (d : DescribeRecord) (args : List (String × String))
    (acc out : Dict) (k : String) (hk : ∀ p ∈ args, p.1 ≠ k)
    (h : applyArgMap d args acc = .ok out) : dget out k = dget acc k := by
  induction args generalizing acc with
  | nil =>
    simp only [applyArgMap] at h
    cases h
    rfl
  | cons p rest ih =>
    cases p with
    | mk arg key =>
      simp only [applyArgMap] at h
      cases hl : dlook d key with
      | none => rw [hl] at h; cases h
      | some x =>
        rw [hl] at h
        have harg : arg ≠ k := hk (arg, key) (List.mem_cons_self _ _)
        rw [ih _ (fun p hp => hk p (List.mem_cons_of_mem _ hp)) h]
        exact dget_dset_ne _ _ _ _ harg

theorem applyArgMap_error_is_keyError (d : DescribeRecord)
    (args : List (String × String)) (acc : Dict) (err : Err)
    (h : applyArgMap d args acc = .error err) : ∃ k, err = .keyError k := by
  induction args generalizing acc with
  | nil => simp only [applyArgMap] at h; cases h
  | cons p rest ih =>
    cases p with
    | mk arg key =>
      simp only [applyArgMap] at h
      cases hl : dlook d key with
      | none =>
        rw [hl] at h
        cases h
        exact ⟨key, rfl⟩
      | some x =>
        rw [hl] at h
        exact ih _ h

theorem buildKwargs_error_is_keyError (e : Entry) (d : DescribeRecord)
    (err : Err) (h : buildKwargs e d = .error err) : ∃ k, err = .keyError k := by
  simp only [buildKwargs] at h
  cases hr : resolveRescale (e.rescale.getD (.const 1.0)) d with
  | error k =>
    rw [hr] at h
    cases h
    exact ⟨k, rfl⟩
  | ok rv =>
    rw [hr] at h
    exact applyArgMap_error_is_keyError _ _ _ _ h

theorem buildKwargs_ok_base (e : Entry) (d : DescribeRecord) (gsk : Dict)
    (k : String) (hk : k ≠ "rescale") (hargs : ∀ p ∈ e.arg_map.getD [], p.1 ≠ k)
    (h : buildKwargs e d = .ok gsk) :
    dget gsk k =
      dget [ ("var", .float (d.sill - d.nugget)),
             ("len_scale", .float d.effective_range),
             ("nugget", .float d.nugget) ] k := by
  simp only [buildKwargs] at h
  cases hr : resolveRescale (e.rescale.getD (.const 1.0)) d with
  | error k2 => rw [hr] at h; cases h
  | ok rv =>
    rw [hr] at h
    rw [applyArgMap_ok_dget _ _ _ _ _ hargs h]
    exact dget_dset_ne _ _ _ _ (fun he => hk he.symm)

theorem translate_ok_structure (gs : Option GSTools) (reg : Registry)
    (v : Variogram) (kw : Dict) (c : GSCall)
    (h : (skgstat_to_gstools gs reg v kw).1 = .ok c) :
    ∃ e gsk, rlookup reg v.describe.name = some e ∧
      buildKwargs (entryFill e) v.describe = .ok gsk ∧
      c = ⟨(entryFill e).gs_cls,
           dupdate gsk (dsetdefault kw "dim" (.int v.dim))⟩ := by
  cases gs with
  | none => simp [skgstat_to_gstools] at h
  | some g =>
    by_cases hv : listLt (versionParts g.version) [1, 3]
    · simp [skgstat_to_gstools, hv] at h
    · simp only [skgstat_to_gstools, hv, Bool.false_eq_true, if_false,
        if_neg] at h
      cases hl : rlookup reg v.describe.name with
      | none => simp [translateCore, hl] at h
      | some e =>
        cases hb : buildKwargs (entryFill e) v.describe with
        | error err => simp [translateCore, hl, hb] at h
        | ok gsk =>
          simp only [translateCore, hl, hb] at h
          injection h with h
          exact ⟨e, gsk, rfl, hb, h.symm⟩

theorem translateCore_snd (reg : Registry) (d : DescribeRecord) (kw : Dict) :
    (rlookup reg d.name = none ∧ (translateCore reg d kw).2 = reg) ∨
    (∃ e, rlookup reg d.name = some e ∧
      (translateCore reg d kw).2 = rset reg d.name (entryFill e)) := by
  cases hl : rlookup reg d.name with
  | none =>
    left
    refine ⟨rfl, ?_⟩
    simp [translateCore, hl]
  | some e =>
    right
    refine ⟨e, rfl, ?_⟩
    simp only [translateCore, hl]
    cases hb : buildKwargs (entryFill e) d with
    | error err => simp [hb]
    | ok gsk => simp [hb]

theorem translateCore_fst_again (reg : Registry) (d : DescribeRecord) (kw : Dict) :
    (translateCore (translateCore reg d kw).2 d kw).1 = (translateCore reg d kw).1 := by
  cases hl : rlookup reg d.name with
  | none =>
    have h2 : (translateCore reg d kw).2 = reg := by simp [translateCore, hl]
    rw [h2]
  | some e =>
    have h2 : (translateCore reg d kw).2 = rset reg d.name (entryFill e) := by
      simp only [translateCore, hl]
      cases hb : buildKwargs (entryFill e) d with
      | error err => simp [hb]
      | ok gsk => simp [hb]
    rw [h2]
    have hl2 : rlookup (rset reg d.name (entryFill e)) d.name = some (entryFill e) :=
      rlookup_rset_found _ _ _ _ hl
    simp only [translateCore, hl, hl2, entryFill_idem]
    cases hb : buildKwargs (entryFill e) d with
    | error err => simp [hb]
    | ok gsk => simp [hb]

theorem translateCore_snd_again (reg : Registry) (d : DescribeRecord) (kw : Dict) :
    (translateCore (translateCore reg d kw).2 d kw).2 = (translateCore reg d kw).2 := by
  cases hl : rlookup reg d.name with
  | none =>
    have h2 : (translateCore reg d kw).2 = reg := by simp [translateCore, hl]
    rw [h2]
    exact h2
  | some e =>
    have h2 : (translateCore reg d kw).2 = rset reg d.name (entryFill e) := by
      simp only [translateCore, hl]
      cases hb : buildKwargs (entryFill e) d with
      | error err => simp [hb]
      | ok gsk => simp [hb]
    rw [h2]
    have hl2 : rlookup (rset reg d.name (entryFill e)) d.name = some (entryFill e) :=
      rlookup_rset_found _ _ _ _ hl
    simp only [translateCore, hl2, entryFill_idem]
    cases hb : buildKwargs (entryFill e) d with
    | error err => simp [hb, rset_rset]
    | ok gsk => simp [hb, rset_rset]

theorem skgstat_some_new_version (g : GSTools) (reg : Registry) (v : Variogram)
    (kw : Dict) (hv : ¬listLt (versionParts g.version) [1, 3] = true) :
    skgstat_to_gstools (some g) reg v kw =
      translateCore reg v.describe (dsetdefault kw "dim" (.int v.dim)) := by
  simp [skgstat_to_gstools, hv]

/-! ### Claim theorems for the adapter layer -/

/-- C2 counterexample: calling `skgstat_to_gstools` on a spherical
variogram mutates the registry: before the call, `MODEL_MAP`'s
`"spherical"` entry has no `rescale` key, afterwards it does (the two
`setdefault` calls wrote the defaults into the stored entry). -/
theorem registry_entry_mutated_by_translate :
    entryRescaleSet MODEL_MAP "spherical" = some false ∧
    entryRescaleSet (skgstat_to_gstools (some gs13) MODEL_MAP vSpherical []).2
      "spherical" = some true :=
  ⟨rfl, rfl⟩

/-- C2 amended: `translate` does mutate the registry, but only by
filling the looked-up family's entry with the default `rescale`/`arg_map`
keys (`entryFill`); every other entry is untouched, and the mutation is
idempotent — a second call with the same arguments leaves the registry
exactly as the first call left it. -/
theorem registry_mutation_fills_defaults_only (gs : Option GSTools)
    (reg : Registry) (v : Variogram) (kw : Dict) :
    ((skgstat_to_gstools gs reg v kw).2 = reg ∨
      ∃ e, rlookup reg v.describe.name = some e ∧
        (skgstat_to_gstools gs reg v kw).2 =
          rset reg v.describe.name (entryFill e)) ∧
    (skgstat_to_gstools gs (skgstat_to_gstools gs reg v kw).2 v kw).2 =
      (skgstat_to_gstools gs reg v kw).2 := by
  cases gs with
  | none => exact ⟨Or.inl rfl, rfl⟩
  | some g =>
    by_cases hv : listLt (versionParts g.version) [1, 3] = true
    · constructor
      · left
        simp [skgstat_to_gstools, hv]
      · simp [skgstat_to_gstools, hv]
    · rw [skgstat_some_new_version g reg v kw hv]
      constructor
      · rcases translateCore_snd reg v.describe
            (dsetdefault kw "dim" (.int v.dim)) with ⟨_, hr⟩ | ⟨e, he, hr⟩
        · left
          exact hr
        · right
          exact ⟨e, he, hr⟩
      · rw [skgstat_some_new_version g _ v kw hv]
        exact translateCore_snd_again _ _ _

/-- C10: translation is deterministic and idempotent — running the
adapter a second time with the identical variogram and overrides (on the
registry as the first call left it) produces the same outcome: the same
external class and the same final keyword set. -/
theorem translate_idempotent (gs : Option GSTools) (reg : Registry)
    (v : Variogram) (kw : Dict) :
    (skgstat_to_gstools gs (skgstat_to_gstools gs reg v kw).2 v kw).1 =
      (skgstat_to_gstools gs reg v kw).1 := by
  cases gs with
  | none => rfl
  | some g =>
    by_cases hv : listLt (versionParts g.version) [1, 3] = true
    · simp [skgstat_to_gstools, hv]
    · rw [skgstat_some_new_version g reg v kw hv,
        skgstat_some_new_version g _ v kw hv]
      exact translateCore_fst_again _ _ _

/-- C9: failures are fast and classified — a library at version
`"1.2.0"` yields the unsupported-version error (and an untouched
registry, no partial result); at `"1.3.0"` the version gate passes, so
the outcome is a success, an unsupported-model error naming the family,
or a key error, never a dependency/version failure; an unregistered
family name yields the unsupported-model error carrying that name; a
missing library yields the missing-dependency error. -/
theorem translate_failures_classified :
    (∀ (reg : Registry) (v : Variogram) (kw : Dict),
      skgstat_to_gstools (some gs12) reg v kw =
        (.error .unsupportedVersion, reg)) ∧
    (∀ (reg : Registry) (v : Variogram) (kw : Dict),
      (∃ c, (skgstat_to_gstools (some gs13) reg v kw).1 = .ok c) ∨
      (∃ n, (skgstat_to_gstools (some gs13) reg v kw).1 =
        .error (.unsupportedModel n)) ∨
      (∃ k, (skgstat_to_gstools (some gs13) reg v kw).1 =
        .error (.keyError k))) ∧
    (skgstat_to_gstools (some gs13) MODEL_MAP ⟨2, dUnknown⟩ [] =
      (.error (.unsupportedModel "unknown"), MODEL_MAP)) ∧
    (∀ (reg : Registry) (v : Variogram) (kw : Dict),
      skgstat_to_gstools none reg v kw = (.error .missingDependency, reg)) := by
  refine ⟨fun reg v kw => rfl, ?_, rfl, fun reg v kw => rfl⟩
  intro reg v kw
  have h13 : ¬listLt (versionParts gs13.version) [1, 3] = true := by decide
  rw [skgstat_some_new_version gs13 reg v kw h13]
  cases hl : rlookup reg v.describe.name with
  | none =>
    right
    left
    exact ⟨v.describe.name, by simp [translateCore, hl]⟩
  | some e =>
    cases hb : buildKwargs (entryFill e) v.describe with
    | error err =>
      obtain ⟨k, hk⟩ := buildKwargs_error_is_keyError _ _ _ hb
      right
      right
      exact ⟨k, by simp [translateCore, hl, hb, hk]⟩
    | ok gsk =>
      left
      exact ⟨⟨(entryFill e).gs_cls,
        dupdate gsk (dsetdefault kw "dim" (.int v.dim))⟩,
        by simp [translateCore, hl, hb]⟩

theorem model_map_entry_cases (n : String) (e : Entry)
    (h : rlookup MODEL_MAP n = some e) :
    e = { gs_cls := "Spherical" } ∨
    e = { gs_cls := "Exponential", rescale := some (.const 3.0) } ∨
    e = { gs_cls := "Gaussian", rescale := some (.const 2.0) } ∨
    e = { gs_cls := "Cubic" } ∨
    e = { gs_cls := "Stable", arg_map := some [("alpha", "shape")],
          rescale := some (.fn stable_rescale) } ∨
    e = { gs_cls := "Matern", arg_map := some [("nu", "smoothness")],
          rescale := some (.fn matern_rescale) } := by
  simp only [ MODEL_MAP, rlookup] at h
  split_ifs at h <;> first
    | (simp only [Option.some.injEq] at h; subst h; tauto)
    | simp at h

theorem model_map_arg_keys (n : String) (e : Entry)
    (h : rlookup MODEL_MAP n = some e) :
    ∀ p ∈ (entryFill e).arg_map.getD [], p.1 = "alpha" ∨ p.1 = "nu" := by
  rcases model_map_entry_cases n e h with h1 | h1 | h1 | h1 | h1 | h1 <;>
    subst h1 <;> intro p hp <;> simp [entryFill] at hp <;> simp [hp]

/-- C3: the rescale rule is resolved per family — a callable rule is
invoked with the full describe record and a constant is used directly;
`stable`'s rule yields `3^(1/shape)` (so shape `2.0` gives `3^0.5`, i.e.
`√3`), `matern`'s yields `4.0` for `0.5 < smoothness < 10.0` and `6.0`
otherwise (so `1.5 ↦ 4.0`, `15.0 ↦ 6.0`), `exponential` carries the
constant `3.0`, `gaussian` `2.0`, and `spherical`/`cubic` carry no rule
and get the default `1.0` — and the resolved stable rescale lands in the
final keyword set. -/
theorem rescale_dispatch_per_family :
    (∀ (d : DescribeRecord) (s : ℝ),
      stable_rescale { d with shape? := some s } = .ok ((3 : ℝ) ^ (1 / s))) ∧
    (stable_rescale dStable = .ok ((3 : ℝ) ^ (1 / (2.0 : ℝ))) ∧
      (3 : ℝ) ^ (1 / (2.0 : ℝ)) = Real.sqrt 3) ∧
    (∀ (d : DescribeRecord) (s : ℝ),
      matern_rescale { d with smoothness? := some s } =
        .ok (if 0.5 < s ∧ s < 10.0 then (4 : ℝ) else 6.0)) ∧
    (matern_rescale dMatern15 = .ok 4.0 ∧
      matern_rescale dMatern150 = .ok 6.0) ∧
    (rlookup MODEL_MAP "exponential" =
        some { gs_cls := "Exponential", rescale := some (.const 3.0) } ∧
      rlookup MODEL_MAP "gaussian" =
        some { gs_cls := "Gaussian", rescale := some (.const 2.0) } ∧
      rlookup MODEL_MAP "spherical" = some { gs_cls := "Spherical" } ∧
      rlookup MODEL_MAP "cubic" = some { gs_cls := "Cubic" } ∧
      (entryFill { gs_cls := "Spherical" }).rescale = some (.const 1.0) ∧
      (entryFill { gs_cls := "Cubic" }).rescale = some (.const 1.0)) ∧
    ((∀ (f : DescribeRecord → Except String ℝ) (d : DescribeRecord),
        resolveRescale (.fn f) d = f d) ∧
      (∀ (x : ℝ) (d : DescribeRecord), resolveRescale (.const x) d = .ok x)) ∧
    okKwarg (skgstat_to_gstools (some gs13) MODEL_MAP vStable []).1 "rescale" =
      some (.float ((3 : ℝ) ^ (1 / (2.0 : ℝ)))) := by
  refine ⟨fun d s => rfl, ⟨rfl, ?_⟩, fun d s => rfl, ⟨?_, ?_⟩,
    ⟨rfl, rfl, rfl, rfl, rfl, rfl⟩, ⟨fun f d => rfl, fun x d => rfl⟩, rfl⟩
  · rw [show (2.0 : ℝ) = 2 by norm_num, Real.sqrt_eq_rpow]
  · simp only [matern_rescale, dlookE, dlook, Except.map, dMatern15]
    norm_num
  · simp only [matern_rescale, dlookE, dlook, Except.map, dMatern150]
    norm_num

/-- C4: the adapter computes the base parameters `var = sill − nugget`,
`len_scale = effective_range`, `nugget = nugget` for every describe
record of a supported family (no overrides); on the spec's spherical
record (`sill 6.0`, `nugget 1.0`, `effective_range 10.0`, `dim 2`) the
final keyword set is exactly `var = 5.0`, `len_scale = 10.0`,
`nugget = 1.0`, `rescale = 1.0`. -/
theorem base_parameters_translated :
    (∀ (gs : Option GSTools) (v : Variogram) (c : GSCall),
      (skgstat_to_gstools gs MODEL_MAP v []).1 = .ok c →
      dget c.gs_kwargs "var" =
        some (.float (v.describe.sill - v.describe.nugget)) ∧
      dget c.gs_kwargs "len_scale" =
        some (.float v.describe.effective_range) ∧
      dget c.gs_kwargs "nugget" = some (.float v.describe.nugget)) ∧
    ((skgstat_to_gstools (some gs13) MODEL_MAP vSpherical []).1 =
      .ok cSpherical) ∧
    (okKwarg (skgstat_to_gstools (some gs13) MODEL_MAP vSpherical []).1
        "var" = some (.float 5) ∧
      okKwarg (skgstat_to_gstools (some gs13) MODEL_MAP vSpherical []).1
        "len_scale" = some (.float 10) ∧
      okKwarg (skgstat_to_gstools (some gs13) MODEL_MAP vSpherical []).1
        "nugget" = some (.float 1) ∧
      okKwarg (skgstat_to_gstools (some gs13) MODEL_MAP vSpherical []).1
        "rescale" = some (.float 1)) := by
  refine ⟨?_, rfl, ?_, ?_, ?_, ?_⟩
  · intro gs v c h
    obtain ⟨e, gsk, hl, hb, hc⟩ := translate_ok_structure gs MODEL_MAP v [] c h
    have hkeys := model_map_arg_keys v.describe.name e hl
    have hdim : dsetdefault ([] : Dict) "dim" (.int v.dim) =
        [("dim", .int v.dim)] := rfl
    have hdu : dupdate gsk [("dim", .int v.dim)] =
        dset gsk "dim" (.int v.dim) := rfl
    rw [hc]
    refine ⟨?_, ?_, ?_⟩ <;>
      simp only [hdim, hdu] <;>
      rw [dget_dset_ne _ _ _ _ (by decide)] <;>
      rw [buildKwargs_ok_base _ _ _ _ (by decide)
        (fun p hp => by rcases hkeys p hp with h1 | h1 <;> rw [h1] <;> decide)
        hb] <;>
      rfl
  · have h0 : okKwarg (skgstat_to_gstools (some gs13) MODEL_MAP vSpherical []).1
        "var" = some (.float (6.0 - 1.0)) := rfl
    rw [h0]
    norm_num
  · have h0 : okKwarg (skgstat_to_gstools (some gs13) MODEL_MAP vSpherical []).1
        "len_scale" = some (.float 10.0) := rfl
    rw [h0]
    norm_num
  · have h0 : okKwarg (skgstat_to_gstools (some gs13) MODEL_MAP vSpherical []).1
        "nugget" = some (.float 1.0) := rfl
    rw [h0]
    norm_num
  · have h0 : okKwarg (skgstat_to_gstools (some gs13) MODEL_MAP vSpherical []).1
        "rescale" = some (.float 1.0) := rfl
    rw [h0]
    norm_num

/-- Witness for the universally quantified part of
`base_parameters_translated`, at the spec's spherical record. -/
theorem base_parameters_translated_witness :
    dget cSpherical.gs_kwargs "var" =
      some (.float (vSpherical.describe.sill - vSpherical.describe.nugget)) ∧
    dget cSpherical.gs_kwargs "len_scale" =
      some (.float vSpherical.describe.effective_range) ∧
    dget cSpherical.gs_kwargs "nugget" =
      some (.float vSpherical.describe.nugget) :=
  base_parameters_translated.1 (some gs13) vSpherical cSpherical rfl

/-- C5: caller-supplied overrides are merged last and win over every
derived value — whenever a key is bound in the overrides dict, the final
keyword set maps it to the override's value; in particular overriding
`rescale=9.9` on the spherical record makes the final `rescale` equal
`9.9` despite the family rule. -/
theorem override_precedence :
    (∀ (gs : Option GSTools) (reg : Registry) (v : Variogram) (kw : Dict)
        (k : String) (val : PyVal) (c : GSCall),
      (kw.map Prod.fst).Nodup → dget kw k = some val →
      (skgstat_to_gstools gs reg v kw).1 = .ok c →
      dget c.gs_kwargs k = some val) ∧
    okKwarg (skgstat_to_gstools (some gs13) MODEL_MAP vSpherical
        [("rescale", .float 9.9)]).1 "rescale" = some (.float 9.9) := by
  refine ⟨?_, rfl⟩
  intro gs reg v kw k val c hnd hk h
  obtain ⟨e, gsk, hl, hb, hc⟩ := translate_ok_structure gs reg v kw c h
  rw [hc]
  exact dget_dupdate_mem _ _ _ _ (keys_dsetdefault_nodup _ _ _ hnd)
    (dget_dsetdefault_present _ _ _ _ _ hk)

/-- Witness for the universally quantified part of `override_precedence`,
at the spherical record with the override `rescale=9.9`. -/
theorem override_precedence_witness :
    dget cSphericalOverride.gs_kwargs "rescale" = some (.float 9.9) :=
  override_precedence.1 (some gs13) MODEL_MAP vSpherical
    [("rescale", .float 9.9)] "rescale" (.float 9.9) cSphericalOverride
    (by simp) rfl rfl
